import Mathlib

/-!
# Whisper chat core — shallow embedding and verification

This file embeds the core data structures and operations of the Whisper
chat server (`src/utils/buffer.ts`, `src/chat/message.ts`, `src/chat/state.ts`,
`src/chat/session.ts`, `src/chat/commands.ts`, `src/network/pubsub.ts`) as
executable Lean definitions and proves properties of them.

Modelling conventions:
* JavaScript numbers holding epoch-millisecond clock values are modelled as
  `Nat` (they are produced by `Date.now()`); where the source subtracts and
  compares (`now - 1000 < t`), the comparison is carried out in `Int` so that
  the truncation of `Nat` subtraction cannot diverge from JS arithmetic.
* `Date.now()` and `uuidv4()` are nondeterministic inputs of the source
  functions; they are passed to the embedded functions as explicit arguments.
* JS `Map` objects (insertion ordered, unique keys) are modelled as
  association lists with an in-place `set` that replaces an existing binding
  and appends a fresh one.
* Strings are Lean `String`s (sequences of Unicode scalar values).
-/

namespace Whisper

/-! ## JS `Map` as an association list (insertion-ordered, unique keys) -/

/-- `Map.set`: replace the binding in place when the key exists, append
otherwise (JS `Map` insertion-order semantics). -/
def mapSet {β : Type} : List (String × β) → String → β → List (String × β)
  | [], k, v => [(k, v)]
  | (k', v') :: rest, k, v =>
    if k' = k then (k, v) :: rest else (k', v') :: mapSet rest k v

/-- `Map.delete`: remove the binding for a key, if present. -/
def mapDelete {β : Type} : List (String × β) → String → List (String × β)
  | [], _ => []
  | (k', v') :: rest, k =>
    if k' = k then rest else (k', v') :: mapDelete rest k

/-- `Map.get`: first (unique) binding for a key. -/
def mapGet {β : Type} : List (String × β) → String → Option β
  | [], _ => none
  | (k', v') :: rest, k => if k' = k then some v' else mapGet rest k

theorem mapGet_mapSet_self {β : Type} (m : List (String × β)) (k : String) (v : β) :
    mapGet (mapSet m k v) k = some v := by
  induction m with
  | nil => simp [mapSet, mapGet]
  | cons p rest ih =>
    obtain ⟨k', v'⟩ := p
    by_cases h : k' = k <;> simp [mapSet, mapGet, h, ih]

theorem mapGet_mapSet_ne {β : Type} (m : List (String × β)) (k k' : String) (v : β)
    (h : k ≠ k') : mapGet (mapSet m k v) k' = mapGet m k' := by
  induction m with
  | nil => simp [mapSet, mapGet, h]
  | cons p rest ih =>
    obtain ⟨k₀, v₀⟩ := p
    by_cases h₀ : k₀ = k
    · subst h₀
      simp [mapSet, mapGet, h]
    · simp only [mapSet, if_neg h₀]
      by_cases h₁ : k₀ = k' <;> simp [mapGet, h₁, ih]

theorem mem_mapSet {β : Type} (m : List (String × β)) (k : String) (v : β) (p : String × β)
    (hp : p ∈ mapSet m k v) : p ∈ m ∨ p = (k, v) := by
  induction m with
  | nil => simpa [mapSet] using hp
  | cons q rest ih =>
    obtain ⟨k₀, v₀⟩ := q
    by_cases h₀ : k₀ = k
    · subst h₀
      simp only [mapSet, if_pos rfl] at hp
      rcases List.mem_cons.mp hp with h | h
      · exact Or.inr h
      · exact Or.inl (List.mem_cons_of_mem _ h)
    · simp only [mapSet, if_neg h₀] at hp
      rcases List.mem_cons.mp hp with h | h
      · exact Or.inl (h ▸ List.mem_cons_self _ _)
      · rcases ih h with h' | h'
        · exact Or.inl (List.mem_cons_of_mem _ h')
        · exact Or.inr h'

theorem mapGet_mem {β : Type} {m : List (String × β)} {k : String} {v : β}
    (h : mapGet m k = some v) : (k, v) ∈ m := by
  induction m with
  | nil => simp [mapGet] at h
  | cons p rest ih =>
    obtain ⟨k', v'⟩ := p
    by_cases hk : k' = k
    · subst hk
      simp only [mapGet, if_true, eq_self_iff_true, Option.some.injEq] at h
      subst h
      exact List.mem_cons_self _ _
    · simp only [mapGet, if_neg hk] at h
      exact List.mem_cons_of_mem _ (ih h)

/-! ## `src/utils/buffer.ts` — `BoundedBuffer`

```ts
push(item: T): void {
  this.items.push(item);
  if (this.items.length > this.maxSize) {
    this.items.shift();
  }
}
```
-/

structure BoundedBuffer (T : Type) where
  items : List T
  maxSize : Nat
  deriving Repr, DecidableEq

namespace BoundedBuffer

/-- A freshly constructed buffer: `items = []`. -/
def mk' (T : Type) (maxSize : Nat) : BoundedBuffer T := ⟨[], maxSize⟩

/-- `BoundedBuffer.push`: append, then drop the head when over capacity. -/
def push {T : Type} (b : BoundedBuffer T) (item : T) : BoundedBuffer T :=
  let items := b.items ++ [item]
  if items.length > b.maxSize then { b with items := items.tail }
  else { b with items := items }

/-- `BoundedBuffer.getAll`: snapshot copy in insertion order. -/
def getAll {T : Type} (b : BoundedBuffer T) : List T := b.items

/-- `BoundedBuffer.getLast`: the most recent `min(count, length)` items. -/
def getLast {T : Type} (b : BoundedBuffer T) (count : Nat) : List T :=
  b.items.drop (b.items.length - count)

theorem push_maxSize {T : Type} (b : BoundedBuffer T) (x : T) :
    (b.push x).maxSize = b.maxSize := by
  unfold push
  dsimp only
  split <;> rfl

/-- Pushing preserves the capacity bound on the length. -/
theorem push_length_le {T : Type} (b : BoundedBuffer T) (x : T)
    (h : b.items.length ≤ b.maxSize) : (b.push x).items.length ≤ b.maxSize := by
  unfold push
  dsimp only
  split
  · simp only [List.length_tail, List.length_append, List.length_singleton]
    omega
  · rename_i hlen
    simp only [List.length_append, List.length_singleton] at *
    omega

/-- While total content fits under the capacity, pushing a whole list just
appends it. -/
theorem foldl_push_of_fits {T : Type} (ms : List T) :
    ∀ (b : BoundedBuffer T), b.items.length + ms.length ≤ b.maxSize →
      (ms.foldl push b).items = b.items ++ ms := by
  induction ms with
  | nil => intro b _; simp
  | cons m rest ih =>
    intro b hfit
    simp only [List.length_cons] at hfit
    have hstep : push b m = { b with items := b.items ++ [m] } := by
      unfold push
      dsimp only
      rw [if_neg]
      simp only [List.length_append, List.length_singleton]
      omega
    simp only [List.foldl_cons, hstep]
    rw [ih { b with items := b.items ++ [m] } (by simp; omega)]
    simp

theorem foldl_push_maxSize {T : Type} (ms : List T) :
    ∀ b : BoundedBuffer T, (ms.foldl push b).maxSize = b.maxSize := by
  induction ms with
  | nil => intro b; rfl
  | cons x xs ih =>
    intro b
    simp only [List.foldl_cons]
    rw [ih, push_maxSize]

/-- Pushing exactly `maxSize + 1` items into a fresh buffer keeps everything
but the first. -/
theorem foldl_push_saturates {T : Type} (c : Nat) (ms : List T)
    (h : ms.length = c + 1) :
    (ms.foldl push (mk' T c)).items = ms.tail := by
  obtain ⟨ms', last, rfl⟩ : ∃ ms' last, ms = ms' ++ [last] := by
    rcases List.eq_nil_or_concat ms with h' | ⟨ms', last, h'⟩
    · subst h'; simp at h
    · exact ⟨ms', last, by simpa [List.concat_eq_append] using h'⟩
  have hlen : ms'.length = c := by
    simp only [List.length_append, List.length_singleton] at h
    omega
  rw [List.foldl_append]
  set b₁ := ms'.foldl push (mk' T c) with hb₁
  have hitems : b₁.items = ms' := by
    rw [hb₁, foldl_push_of_fits ms' (mk' T c) (by simp [mk', hlen])]
    simp [mk']
  have hmax : b₁.maxSize = c := by rw [hb₁, foldl_push_maxSize]; rfl
  simp only [List.foldl_cons, List.foldl_nil]
  unfold push
  dsimp only
  rw [hitems, hmax]
  rw [if_pos (by simp [hlen])]

end BoundedBuffer

/-! ## `src/utils/buffer.ts` — `RateLimiter`

```ts
canProceed(): boolean {
  const now = Date.now();
  const windowStart = now - this.windowMs;
  this.timestamps = this.timestamps.filter(t => t > windowStart);
  return this.timestamps.length < this.maxRequests;
}
record(): boolean {
  if (!this.canProceed()) { return false; }
  this.timestamps.push(Date.now());
  return true;
}
```
`Date.now()` is passed in as `now`; the `windowMs` field is the constant
`1000`. The subtraction `now - 1000` is done in `Int`, as in JS. -/

structure RateLimiter where
  timestamps : List Nat
  maxRequests : Nat
  deriving Repr, DecidableEq

namespace RateLimiter

def windowMs : Nat := 1000

/-- The filter `t > now - windowMs` from `canProceed`. -/
def inWindow (now t : Nat) : Bool := (t : Int) > (now : Int) - (windowMs : Int)

/-- `canProceed`: expire out-of-window timestamps (a mutation of the
receiver), then compare the count against the limit. Returns the boolean
result together with the mutated receiver. -/
def canProceed (rl : RateLimiter) (now : Nat) : Bool × RateLimiter :=
  let ts := rl.timestamps.filter (inWindow now)
  (ts.length < rl.maxRequests, { rl with timestamps := ts })

/-- `record`: refuse (keeping only `canProceed`'s expiry) when the window is
full, otherwise append `now`. -/
def record (rl : RateLimiter) (now : Nat) : Bool × RateLimiter :=
  let (ok, rl') := canProceed rl now
  if !ok then (false, rl')
  else (true, { rl' with timestamps := rl'.timestamps ++ [now] })

end RateLimiter

/-! ## `src/chat/message.ts` — typed chat messages

`createMessage` draws `id` from `uuidv4()` and `timestamp` from `Date.now()`;
both are nondeterministic inputs and appear here as the explicit arguments
`id` and `timestamp`. -/

inductive MessageType where
  | text
  | join
  | leave
  | nick
  | action
  deriving Repr, DecidableEq

structure ChatMessage where
  id : String
  timestamp : Nat
  room : String
  nick : String
  fingerprint : String
  type : MessageType
  content : String
  oldNick : Option String
  deriving Repr, DecidableEq

/-- `createMessage(type, room, nick, fingerprint, content, oldNick?)`. -/
def createMessage (type : MessageType) (room nick fingerprint content : String)
    (oldNick : Option String) (id : String) (timestamp : Nat) : ChatMessage :=
  { id, timestamp, room, nick, fingerprint, type, content, oldNick }

/-- `createTextMessage(room, nick, fingerprint, content)`. -/
def createTextMessage (room nick fingerprint content : String)
    (id : String) (timestamp : Nat) : ChatMessage :=
  createMessage .text room nick fingerprint content none id timestamp

/-- `createJoinMessage(room, nick, fingerprint)`. -/
def createJoinMessage (room nick fingerprint : String)
    (id : String) (timestamp : Nat) : ChatMessage :=
  createMessage .join room nick fingerprint (nick ++ " has joined the room") none id timestamp

/-- `createLeaveMessage(room, nick, fingerprint)`. -/
def createLeaveMessage (room nick fingerprint : String)
    (id : String) (timestamp : Nat) : ChatMessage :=
  createMessage .leave room nick fingerprint (nick ++ " has left the room") none id timestamp

/-- `createNickChangeMessage(room, oldNick, newNick, fingerprint)`. -/
def createNickChangeMessage (room oldNick newNick fingerprint : String)
    (id : String) (timestamp : Nat) : ChatMessage :=
  createMessage .nick room newNick fingerprint
    (oldNick ++ " is now known as " ++ newNick) (some oldNick) id timestamp

/-- `createActionMessage(room, nick, fingerprint, action)`. -/
def createActionMessage (room nick fingerprint action : String)
    (id : String) (timestamp : Nat) : ChatMessage :=
  createMessage .action room nick fingerprint action none id timestamp

/-- `isMessageSizeValid(content, maxSize)`: UTF-8 byte length of the content
(not the whole record) compared with the limit. -/
def isMessageSizeValid (content : String) (maxSize : Nat) : Bool :=
  content.utf8ByteSize ≤ maxSize

/-- JS `String.prototype.toLowerCase`, as the character-wise simple lowercase
mapping (it agrees with the full Unicode mapping on the ASCII strings this
program compares). -/
def jsToLowerCase (s : String) : String := ⟨s.data.map Char.toLower⟩

/-! ## `src/chat/state.ts` — `ChatState`, the shared Chat Directory

`ChatState extends EventEmitter`; the listener registry the class inherits is
part of its state.  The sessions of this program attach exactly one listener
per event name (`setupStateListeners`), and the only listener payload the
claims need is the `'message'` one, so the registry is modelled as the list
of ids of the sessions that attached listeners; `removeAllListeners()`
clears that whole shared list.  The `'message'` listener closure reads the
owning session's *current* `_room` and `fingerprint`, so delivery is
computed against the live session records (`emitMessageDeliveries`). -/

structure UserInfo where
  sessionId : String
  nick : String
  fingerprint : String
  room : String
  joinedAt : Nat
  deriving Repr, DecidableEq

structure ChatState where
  users : List (String × UserInfo)
  roomMessages : List (String × BoundedBuffer ChatMessage)
  maxMessagesPerRoom : Nat
  /-- Ids of sessions with listeners attached (the inherited `EventEmitter`
  registry, projected to its owners). -/
  listenerOwners : List String
  deriving Repr, DecidableEq

namespace ChatState

/-- `new ChatState(maxMessagesPerRoom)`. -/
def init (maxMessagesPerRoom : Nat) : ChatState :=
  { users := [], roomMessages := [], maxMessagesPerRoom, listenerOwners := [] }

/-- `addUser(sessionId, nick, fingerprint, room)`; `joinedAt = Date.now()`
is the explicit `now` argument. -/
def addUser (s : ChatState) (sessionId nick fingerprint room : String)
    (now : Nat) : ChatState × UserInfo :=
  let user : UserInfo := { sessionId, nick, fingerprint, room, joinedAt := now }
  ({ s with users := mapSet s.users sessionId user }, user)

/-- `removeUser(sessionId)`. -/
def removeUser (s : ChatState) (sessionId : String) : ChatState × Option UserInfo :=
  match mapGet s.users sessionId with
  | some user => ({ s with users := mapDelete s.users sessionId }, some user)
  | none => (s, none)

/-- `getUser(sessionId)`. -/
def getUser (s : ChatState) (sessionId : String) : Option UserInfo :=
  mapGet s.users sessionId

/-- `setNick(sessionId, newNick)`: in-place update of the stored record. -/
def setNick (s : ChatState) (sessionId newNick : String) : ChatState × Bool :=
  match mapGet s.users sessionId with
  | none => (s, false)
  | some user =>
    ({ s with users := mapSet s.users sessionId { user with nick := newNick } }, true)

/-- `setRoom(sessionId, newRoom)`: in-place update of the stored record. -/
def setRoom (s : ChatState) (sessionId newRoom : String) : ChatState × Bool :=
  match mapGet s.users sessionId with
  | none => (s, false)
  | some user =>
    ({ s with users := mapSet s.users sessionId { user with room := newRoom } }, true)

/-- `getUsersInRoom(room)`. -/
def getUsersInRoom (s : ChatState) (room : String) : List UserInfo :=
  (s.users.map Prod.snd).filter (fun u => u.room == room)

/-- `addMessage(message)`: fetch or lazily create the room's buffer, push. -/
def addMessage (s : ChatState) (m : ChatMessage) : ChatState :=
  let buffer := (mapGet s.roomMessages m.room).getD
    (BoundedBuffer.mk' ChatMessage s.maxMessagesPerRoom)
  { s with roomMessages := mapSet s.roomMessages m.room (buffer.push m) }

/-- `getRecentMessages(room, count?)`. -/
def getRecentMessages (s : ChatState) (room : String) (count : Option Nat) :
    List ChatMessage :=
  match mapGet s.roomMessages room with
  | none => []
  | some buffer =>
    match count with
    | some c => buffer.getLast c
    | none => buffer.getAll

/-- `isNickTaken(nick, room, excludeSessionId?)`: the loop over
`users.values()`.  The JS guard `excludeSessionId && user.sessionId ===
excludeSessionId` only skips the user when `excludeSessionId` is *truthy*,
i.e. present and non-empty. -/
def isNickTakenGo (nick room : String) (excludeSessionId : Option String) :
    List (String × UserInfo) → Bool
  | [] => false
  | (_, u) :: rest =>
    if u.room == room && jsToLowerCase u.nick == jsToLowerCase nick then
      if (match excludeSessionId with
          | some e => !(e == "") && u.sessionId == e
          | none => false) then
        isNickTakenGo nick room excludeSessionId rest
      else true
    else isNickTakenGo nick room excludeSessionId rest

def isNickTaken (s : ChatState) (nick room : String)
    (excludeSessionId : Option String) : Bool :=
  isNickTakenGo nick room excludeSessionId s.users

/-- The inherited `EventEmitter.removeAllListeners()`: drops every listener
on the shared emitter, whoever attached it. -/
def removeAllListeners (s : ChatState) : ChatState :=
  { s with listenerOwners := [] }

end ChatState

/-! ## `src/network/pubsub.ts` — `ChatPubSub.sendMessage` error handling

```ts
try {
  await this.node.services.pubsub.publish(topic, data);
} catch (err) {
  const errorMessage = err instanceof Error ? err.message : String(err);
  if (errorMessage.includes('NoPeersSubscribedToTopic')) { return; }
  throw err;
}
```
The overlay publish outcome is an input: `none` when the publish resolved,
`some msg` when it rejected with error message `msg`. -/

/-- JS `String.prototype.includes`. -/
def jsIncludes (s pat : String) : Bool := decide (pat.data <:+: s.data)

/-- Error-message substring the overlay uses to signal an empty topic. -/
def noPeersSignal : String := "NoPeersSubscribedToTopic"

/-- The result `ChatPubSub.sendMessage` hands back to its caller: `ok` when
it returns normally, `error` when it rethrows. -/
def pubsubSendOutcome (publishErr : Option String) : Except String Unit :=
  match publishErr with
  | none => .ok ()
  | some msg => if jsIncludes msg noPeersSignal then .ok () else .error msg

/-! ## `src/chat/session.ts` — `UserSession`

The session's UI callbacks and its pubsub publishes are modelled as an
ordered effect trace.  `Date.now()`, `uuidv4()` and the overlay publish
outcome are nondeterministic inputs, passed explicitly. -/

structure Config where
  defaultRoom : String
  maxMessageSize : Nat
  rateLimit : Nat
  maxNickLength : Nat
  maxRoomNameLength : Nat
  deriving Repr, DecidableEq

inductive Effect where
  /-- A `pubsub.sendMessage(room, m)` call (the publish attempt). -/
  | publish (room : String) (m : ChatMessage)
  | onMessage (m : ChatMessage)
  | onSystemMessage (s : String)
  | onRoomChange (room : String)
  | onDisconnect
  | onClearMessages
  deriving Repr, DecidableEq

structure UserSession where
  id : String
  fingerprint : String
  config : Config
  nick : String
  room : String
  isConnected : Bool
  rateLimiter : RateLimiter
  deriving Repr, DecidableEq

/-- The combined result of a session operation: the session's own mutable
fields, the shared directory, and the effect trace in program order. -/
structure OpResult where
  session : UserSession
  state : ChatState
  effects : List Effect
  deriving Repr, DecidableEq

namespace UserSession

/-- `sendMessage(content)`. -/
def sendMessage (sess : UserSession) (st : ChatState) (content : String)
    (now : Nat) (msgId : String) (publishErr : Option String) : OpResult :=
  if !sess.isConnected then
    ⟨sess, st, [.onSystemMessage "Not connected"]⟩
  else
    let (ok, rl) := sess.rateLimiter.record now
    let sess := { sess with rateLimiter := rl }
    if !ok then
      ⟨sess, st, [.onSystemMessage "Rate limit exceeded. Please slow down."]⟩
    else if !isMessageSizeValid content sess.config.maxMessageSize then
      ⟨sess, st, [.onSystemMessage
        ("Message too long (max " ++ toString sess.config.maxMessageSize ++ " bytes)")]⟩
    else
      let message := createTextMessage sess.room sess.nick sess.fingerprint content msgId now
      match pubsubSendOutcome publishErr with
      | .ok _ =>
        ⟨sess, st.addMessage message, [.publish sess.room message, .onMessage message]⟩
      | .error _ =>
        ⟨sess, st, [.publish sess.room message, .onSystemMessage "Failed to send message"]⟩

/-- `sendAction(action)` — no size check in the source. -/
def sendAction (sess : UserSession) (st : ChatState) (action : String)
    (now : Nat) (msgId : String) (publishErr : Option String) : OpResult :=
  if !sess.isConnected then
    ⟨sess, st, [.onSystemMessage "Not connected"]⟩
  else
    let (ok, rl) := sess.rateLimiter.record now
    let sess := { sess with rateLimiter := rl }
    if !ok then
      ⟨sess, st, [.onSystemMessage "Rate limit exceeded. Please slow down."]⟩
    else
      let message := createActionMessage sess.room sess.nick sess.fingerprint action msgId now
      match pubsubSendOutcome publishErr with
      | .ok _ =>
        ⟨sess, st.addMessage message, [.publish sess.room message, .onMessage message]⟩
      | .error _ =>
        ⟨sess, st, [.publish sess.room message, .onSystemMessage "Failed to send action"]⟩

/-- `changeNick(newNick)` — note: no `isConnected` guard in the source. -/
def changeNick (sess : UserSession) (st : ChatState) (newNick : String)
    (now : Nat) (msgId : String) (publishErr : Option String) : OpResult :=
  if newNick == sess.nick then
    ⟨sess, st, [.onSystemMessage "That is already your nickname"]⟩
  else if st.isNickTaken newNick sess.room (some sess.id) then
    ⟨sess, st, [.onSystemMessage
      ("Nickname \"" ++ newNick ++ "\" is already taken in this room")]⟩
  else
    let oldNick := sess.nick
    let sess := { sess with nick := newNick }
    let st := (st.setNick sess.id newNick).1
    let message := createNickChangeMessage sess.room oldNick newNick sess.fingerprint msgId now
    match pubsubSendOutcome publishErr with
    | .ok _ =>
      ⟨sess, st.addMessage message,
        [.publish sess.room message,
         .onSystemMessage ("You are now known as " ++ newNick)]⟩
    | .error _ =>
      -- publish failure only logged; the nick change is not rolled back
      ⟨sess, st,
        [.publish sess.room message,
         .onSystemMessage ("You are now known as " ++ newNick)]⟩

/-- `disconnect()` — idempotent; leave-publish failures are only logged. -/
def disconnect (sess : UserSession) (st : ChatState)
    (msgId : String) (now : Nat) : OpResult :=
  if !sess.isConnected then ⟨sess, st, []⟩
  else
    let leaveMessage := createLeaveMessage sess.room sess.nick sess.fingerprint msgId now
    let (st, _) := st.removeUser sess.id
    ⟨{ sess with isConnected := false }, st,
      [.publish sess.room leaveMessage, .onDisconnect]⟩

/-- `destroy()`: `disconnect()` then `this.chatState.removeAllListeners()` —
the latter clears the *shared* emitter's listener registry. -/
def destroy (sess : UserSession) (st : ChatState)
    (msgId : String) (now : Nat) : OpResult :=
  let r := sess.disconnect st msgId now
  ⟨r.session, r.state.removeAllListeners, r.effects⟩

/-- `setupStateListeners()` (listener registration only): the session
attaches its handlers to the shared emitter. -/
def attachListeners (sess : UserSession) (st : ChatState) : ChatState :=
  { st with listenerOwners := st.listenerOwners ++ [sess.id] }

end UserSession

/-- Fan-out of a directory `'message'` event: every attached `'message'`
listener whose owning session currently satisfies
`message.room === this._room && message.fingerprint !== this.fingerprint`
receives the message; the result lists the ids of the sessions whose
`callbacks.onMessage` fires, in attach order. -/
def emitMessageDeliveries (st : ChatState) (sessions : List UserSession)
    (m : ChatMessage) : List String :=
  (st.listenerOwners.filterMap
    (fun owner => (sessions.find? (fun s => s.id == owner)).map (fun s => (owner, s)))).filterMap
    (fun p => if m.room == p.2.room && m.fingerprint != p.2.fingerprint then some p.1 else none)

/-! ## `src/chat/commands.ts` — sanitization and the `/nick` command

```ts
export function sanitizeNick(nick: string): string {
  return nick.replace(/[^a-zA-Z0-9_-]/g, '').slice(0, 32);
}
export function sanitizeRoomName(room: string): string {
  return room.replace(/[^a-zA-Z0-9_-]/g, '').slice(0, 32).toLowerCase();
}
```
After the filter every remaining character is ASCII, so `slice(0, 32)` on
UTF-16 code units coincides with taking 32 characters. -/

/-- Membership in the character class `[a-zA-Z0-9_-]`. -/
def isAllowedChar (c : Char) : Bool :=
  ('a' ≤ c && c ≤ 'z') || ('A' ≤ c && c ≤ 'Z') || ('0' ≤ c && c ≤ '9')
    || c == '_' || c == '-'

/-- `sanitizeNick`. -/
def sanitizeNick (nick : String) : String :=
  ⟨(nick.data.filter isAllowedChar).take 32⟩

/-- `sanitizeRoomName`. -/
def sanitizeRoomName (room : String) : String :=
  jsToLowerCase ⟨(room.data.filter isAllowedChar).take 32⟩

/-- The branches of `nickCommand.execute`. -/
inductive NickCmdResult where
  | usage
  | invalidNick
  | tooLong
  | changeNick (newNick : String)
  deriving Repr, DecidableEq

/-- `nickCommand.execute({args, session})`, up to the dispatch into
`session.changeNick`.  `maxNickLength` is `session.config.maxNickLength`.
The JS falsiness test `!newNick` is the emptiness test, and `.length` of the
all-ASCII sanitized nick is its character count. -/
def nickCommandExecute (args : List String) (maxNickLength : Nat) : NickCmdResult :=
  match args with
  | [] => .usage
  | a :: _ =>
    let newNick := sanitizeNick a
    if newNick == "" then .invalidNick
    else if newNick.length > maxNickLength then .tooLong
    else .changeNick newNick

/-! ## Character-level facts about the sanitizer alphabet -/

theorem char_toNat_ofNat {n : Nat} (h : n.isValidChar) : (Char.ofNat n).toNat = n := by
  unfold Char.ofNat
  rw [dif_pos h]
  rfl

theorem char_le_iff_toNat {c d : Char} : c ≤ d ↔ c.toNat ≤ d.toNat := ⟨fun h => h, fun h => h⟩

theorem char_eq_iff_toNat {c d : Char} : c = d ↔ c.toNat = d.toNat :=
  ⟨fun h => h ▸ rfl, fun h => by rw [← Char.ofNat_toNat c, ← Char.ofNat_toNat d, h]⟩

theorem isAllowedChar_iff {c : Char} : isAllowedChar c = true ↔
    (97 ≤ c.toNat ∧ c.toNat ≤ 122) ∨ (65 ≤ c.toNat ∧ c.toNat ≤ 90) ∨
    (48 ≤ c.toNat ∧ c.toNat ≤ 57) ∨ c.toNat = 95 ∨ c.toNat = 45 := by
  simp only [isAllowedChar, Bool.or_eq_true, Bool.and_eq_true, decide_eq_true_eq, beq_iff_eq,
    char_le_iff_toNat, char_eq_iff_toNat]
  simp only [show 'a'.toNat = 97 from rfl, show 'z'.toNat = 122 from rfl,
    show 'A'.toNat = 65 from rfl, show 'Z'.toNat = 90 from rfl,
    show '0'.toNat = 48 from rfl, show '9'.toNat = 57 from rfl,
    show '_'.toNat = 95 from rfl, show '-'.toNat = 45 from rfl]
  tauto

theorem char_toLower_toNat_of_upper {c : Char} (h1 : 65 ≤ c.toNat) (h2 : c.toNat ≤ 90) :
    (Char.toLower c).toNat = c.toNat + 32 := by
  unfold Char.toLower
  rw [if_pos ⟨h1, h2⟩]
  exact char_toNat_ofNat (Or.inl (by omega))

theorem char_toLower_eq_self {c : Char} (h : ¬(65 ≤ c.toNat ∧ c.toNat ≤ 90)) :
    Char.toLower c = c := by
  unfold Char.toLower
  exact if_neg h

theorem isAllowedChar_toLower {c : Char} (h : isAllowedChar c = true) :
    isAllowedChar c.toLower = true := by
  rw [isAllowedChar_iff] at h ⊢
  by_cases hu : 65 ≤ c.toNat ∧ c.toNat ≤ 90
  · rw [char_toLower_toNat_of_upper hu.1 hu.2]
    omega
  · rw [char_toLower_eq_self hu]
    exact h

theorem char_toLower_idem (c : Char) : c.toLower.toLower = c.toLower := by
  by_cases hu : 65 ≤ c.toNat ∧ c.toNat ≤ 90
  · have h2 := char_toLower_toNat_of_upper hu.1 hu.2
    apply char_toLower_eq_self
    omega
  · rw [char_toLower_eq_self hu]
    exact char_toLower_eq_self hu

theorem mem_sanitizeNick_allowed {x : String} {c : Char}
    (hc : c ∈ (sanitizeNick x).data) : isAllowedChar c = true :=
  List.of_mem_filter (List.mem_of_mem_take hc)

theorem mem_sanitizeRoomName_allowed {x : String} {c : Char}
    (hc : c ∈ (sanitizeRoomName x).data) : isAllowedChar c = true := by
  obtain ⟨c', hc', rfl⟩ := List.mem_map.mp hc
  exact isAllowedChar_toLower (List.of_mem_filter (List.mem_of_mem_take hc'))

/-! ## Claim theorems -/

/-- **C9.** `sanitizeNick` and `sanitizeRoomName` are idempotent;
`sanitizeRoomName`'s output is already lowercase, so lowercasing it again
changes nothing; both outputs contain only characters from `[a-zA-Z0-9_-]`
and have length at most 32. -/
theorem c9_sanitize_idempotent (x : String) :
    sanitizeNick (sanitizeNick x) = sanitizeNick x ∧
    sanitizeRoomName (sanitizeRoomName x) = sanitizeRoomName x ∧
    jsToLowerCase (sanitizeRoomName x) = sanitizeRoomName x ∧
    (∀ c ∈ (sanitizeNick x).data, isAllowedChar c = true) ∧
    (∀ c ∈ (sanitizeRoomName x).data, isAllowedChar c = true) ∧
    (sanitizeNick x).length ≤ 32 ∧ (sanitizeRoomName x).length ≤ 32 := by
  have hmapmap : ∀ l : List Char,
      (l.map Char.toLower).map Char.toLower = l.map Char.toLower := by
    intro l
    rw [List.map_map]
    exact List.map_congr_left fun c _ => char_toLower_idem c
  refine ⟨?_, ?_, ?_, fun c hc => mem_sanitizeNick_allowed hc,
    fun c hc => mem_sanitizeRoomName_allowed hc, ?_, ?_⟩
  · show String.mk ((((x.data.filter isAllowedChar).take 32).filter isAllowedChar).take 32)
      = String.mk ((x.data.filter isAllowedChar).take 32)
    apply congrArg String.mk
    have hfe : List.filter isAllowedChar (List.take 32 (List.filter isAllowedChar x.data))
        = List.take 32 (List.filter isAllowedChar x.data) :=
      List.filter_eq_self.mpr fun c hc => List.of_mem_filter (List.mem_of_mem_take hc)
    rw [hfe, List.take_take, min_self]
  · show String.mk (((((((x.data.filter isAllowedChar).take 32).map Char.toLower).filter
        isAllowedChar).take 32)).map Char.toLower)
      = String.mk (((x.data.filter isAllowedChar).take 32).map Char.toLower)
    apply congrArg String.mk
    have hfe : List.filter isAllowedChar
        (List.map Char.toLower (List.take 32 (List.filter isAllowedChar x.data)))
        = List.map Char.toLower (List.take 32 (List.filter isAllowedChar x.data)) := by
      refine List.filter_eq_self.mpr fun c hc => ?_
      obtain ⟨c', hc', rfl⟩ := List.mem_map.mp hc
      exact isAllowedChar_toLower (List.of_mem_filter (List.mem_of_mem_take hc'))
    rw [hfe, List.take_of_length_le (by simpa using List.length_take_le 32 _)]
    exact hmapmap _
  · show String.mk ((((x.data.filter isAllowedChar).take 32).map Char.toLower).map Char.toLower)
      = String.mk (((x.data.filter isAllowedChar).take 32).map Char.toLower)
    exact congrArg String.mk (hmapmap _)
  · show ((x.data.filter isAllowedChar).take 32).length ≤ 32
    exact List.length_take_le 32 _
  · show (((x.data.filter isAllowedChar).take 32).map Char.toLower).length ≤ 32
    simpa using List.length_take_le 32 _

/-- **C10.** `sanitizeNick` truncates to 32 characters, so the sanitized nick
always has length at most 32; hence when `config.maxNickLength ≥ 32` the
"Nickname too long" branch of the `/nick` command is unreachable, and any two
configured limits ≥ 32 produce identical behaviour. -/
theorem c10_nick_too_long_unreachable :
    (∀ x : String, (sanitizeNick x).length ≤ 32) ∧
    (∀ (args : List String) (maxLen : Nat), 32 ≤ maxLen →
      nickCommandExecute args maxLen ≠ .tooLong) ∧
    (∀ (args : List String) (m₁ m₂ : Nat), 32 ≤ m₁ → 32 ≤ m₂ →
      nickCommandExecute args m₁ = nickCommandExecute args m₂) := by
  have hlen : ∀ x : String, (sanitizeNick x).length ≤ 32 := fun x =>
    List.length_take_le 32 _
  refine ⟨hlen, ?_, ?_⟩
  · intro args maxLen hmax
    match args with
    | [] => simp [nickCommandExecute]
    | a :: rest =>
      simp only [nickCommandExecute]
      split
      · simp
      · rw [if_neg (by have := hlen a; omega)]
        simp
  · intro args m₁ m₂ h₁ h₂
    match args with
    | [] => rfl
    | a :: rest =>
      simp only [nickCommandExecute]
      split
      · rfl
      · rw [if_neg (by have := hlen a; omega), if_neg (by have := hlen a; omega)]

/-- Witness for C10 at a concrete input: `/nick` on `"alice!!"` with limits
64 and 100 does not take the too-long branch and is limit-independent. -/
theorem c10_witness :
    nickCommandExecute ["alice!!"] 64 ≠ .tooLong ∧
    nickCommandExecute ["alice!!"] 64 = nickCommandExecute ["alice!!"] 100 :=
  ⟨c10_nick_too_long_unreachable.2.1 ["alice!!"] 64 (by decide),
   c10_nick_too_long_unreachable.2.2 ["alice!!"] 64 100 (by decide) (by decide)⟩

/-- **C7.** `ChatPubSub.sendMessage` succeeds when the overlay publish
succeeds, and also when the overlay reports the no-remote-subscribers
condition; every other publish failure is propagated to the caller. -/
theorem c7_publish_isolated_ok :
    pubsubSendOutcome none = .ok () ∧
    (∀ msg : String, jsIncludes msg noPeersSignal = true →
      pubsubSendOutcome (some msg) = .ok ()) ∧
    (∀ msg : String, jsIncludes msg noPeersSignal = false →
      pubsubSendOutcome (some msg) = .error msg) := by
  refine ⟨rfl, ?_, ?_⟩ <;> intro msg h <;> simp [pubsubSendOutcome, h]

/-- Witness for C7: a `PublishError.NoPeersSubscribedToTopic` rejection is
success; a dial failure is propagated. -/
theorem c7_witness :
    pubsubSendOutcome (some "PublishError.NoPeersSubscribedToTopic") = .ok () ∧
    pubsubSendOutcome (some "dial failed") = .error "dial failed" :=
  ⟨c7_publish_isolated_ok.2.1 _ (by decide), c7_publish_isolated_ok.2.2 _ (by decide)⟩

/-- Run `record` once per clock value, collecting the returned booleans. -/
def recordAll (rl : RateLimiter) (times : List Nat) : List Bool × RateLimiter :=
  times.foldl (fun p t =>
    let r := p.2.record t
    (p.1 ++ [r.1], r.2)) ([], rl)

/-- **C4.** `canProceed` is true iff strictly fewer than `maxPerSecond`
recorded timestamps lie in the last 1000 ms; a refused `record` changes the
state only by expiring out-of-window entries, an admitted one appends `now`;
at limit 10, ten records in one window succeed and the eleventh fails. -/
theorem c4_rate_limiter (rl : RateLimiter) (now : Nat) :
    ((rl.canProceed now).1 = true ↔
      (rl.timestamps.filter (RateLimiter.inWindow now)).length < rl.maxRequests) ∧
    ((rl.canProceed now).1 = false →
      rl.record now =
        (false, { rl with timestamps := rl.timestamps.filter (RateLimiter.inWindow now) })) ∧
    ((rl.canProceed now).1 = true →
      rl.record now =
        (true, { rl with
          timestamps := rl.timestamps.filter (RateLimiter.inWindow now) ++ [now] })) ∧
    (recordAll ⟨[], 10⟩ [0, 10, 20, 30, 40, 50, 60, 70, 80, 90, 100]).1 =
      [true, true, true, true, true, true, true, true, true, true, false] := by
  refine ⟨by simp [RateLimiter.canProceed], ?_, ?_, by decide⟩
  · intro h
    simp only [RateLimiter.canProceed, decide_eq_false_iff_not, not_lt] at h
    simp [RateLimiter.record, RateLimiter.canProceed, Nat.not_lt.mpr h]
  · intro h
    simp only [RateLimiter.canProceed, decide_eq_true_eq] at h
    simp [RateLimiter.record, RateLimiter.canProceed, h]

/-- Witness for C4 at a concrete state: a limiter at capacity refuses and
only expires; one below capacity appends. -/
theorem c4_witness :
    (RateLimiter.canProceed ⟨[100, 2000, 2100], 2⟩ 2500).1 = false ∧
    RateLimiter.record ⟨[100, 2000, 2100], 2⟩ 2500 = (false, ⟨[2000, 2100], 2⟩) ∧
    (RateLimiter.canProceed ⟨[100, 2000], 2⟩ 2500).1 = true ∧
    RateLimiter.record ⟨[100, 2000], 2⟩ 2500 = (true, ⟨[2000, 2500], 2⟩) :=
  ⟨by decide,
   (c4_rate_limiter ⟨[100, 2000, 2100], 2⟩ 2500).2.1 (by decide),
   by decide,
   (c4_rate_limiter ⟨[100, 2000], 2⟩ 2500).2.2.1 (by decide)⟩

/-! ### C3 — bounded per-room history -/

/-- The buffer `addMessage` operates on for a given room: the stored one, or
the lazily created empty one. -/
def bufAt (s : ChatState) (room : String) : BoundedBuffer ChatMessage :=
  (mapGet s.roomMessages room).getD (BoundedBuffer.mk' ChatMessage s.maxMessagesPerRoom)

/-- Observable history of a room (empty when the directory holds none). -/
def roomHistory (s : ChatState) (room : String) : List ChatMessage :=
  (bufAt s room).items

/-- All stored buffers are within capacity, and carry the directory's
capacity. -/
def BuffersOk (s : ChatState) : Prop :=
  ∀ p ∈ s.roomMessages, (p.2.items.length ≤ s.maxMessagesPerRoom ∧
    p.2.maxSize = s.maxMessagesPerRoom)

theorem addMessage_maxMessagesPerRoom (s : ChatState) (m : ChatMessage) :
    (s.addMessage m).maxMessagesPerRoom = s.maxMessagesPerRoom := rfl

theorem bufAt_length_le {s : ChatState} (hs : BuffersOk s) (room : String) :
    (bufAt s room).items.length ≤ s.maxMessagesPerRoom := by
  unfold bufAt
  cases hget : mapGet s.roomMessages room with
  | none => simp [BoundedBuffer.mk']
  | some b => simpa using (hs (room, b) (mapGet_mem hget)).1

theorem bufAt_maxSize {s : ChatState} (hs : BuffersOk s) (room : String) :
    (bufAt s room).maxSize = s.maxMessagesPerRoom := by
  unfold bufAt
  cases hget : mapGet s.roomMessages room with
  | none => simp [BoundedBuffer.mk']
  | some b => simpa using (hs (room, b) (mapGet_mem hget)).2

theorem buffersOk_addMessage {s : ChatState} (hs : BuffersOk s) (m : ChatMessage) :
    BuffersOk (s.addMessage m) := by
  have hlen := bufAt_length_le hs m.room
  have hmax := bufAt_maxSize hs m.room
  intro p hp
  simp only [ChatState.addMessage] at hp
  rcases mem_mapSet _ _ _ _ hp with h | h
  · exact hs p h
  · subst h
    refine ⟨?_, ?_⟩
    · show ((bufAt s m.room).push m).items.length ≤ (s.addMessage m).maxMessagesPerRoom
      rw [addMessage_maxMessagesPerRoom, ← hmax]
      exact BoundedBuffer.push_length_le _ _ (by rw [hmax]; exact hlen)
    · show ((bufAt s m.room).push m).maxSize = (s.addMessage m).maxMessagesPerRoom
      rw [addMessage_maxMessagesPerRoom, BoundedBuffer.push_maxSize]
      exact hmax

theorem foldl_addMessage_buffersOk (ms : List ChatMessage) :
    ∀ {s : ChatState}, BuffersOk s → BuffersOk (ms.foldl ChatState.addMessage s) := by
  induction ms with
  | nil => intro s hs; exact hs
  | cons m rest ih => intro s hs; exact ih (buffersOk_addMessage hs m)

theorem buffersOk_init (maxM : Nat) : BuffersOk (ChatState.init maxM) := by
  intro p hp
  simp [ChatState.init] at hp

theorem foldl_addMessage_maxM (ms : List ChatMessage) :
    ∀ s : ChatState,
      (ms.foldl ChatState.addMessage s).maxMessagesPerRoom = s.maxMessagesPerRoom := by
  induction ms with
  | nil => intro s; rfl
  | cons m rest ih => intro s; exact ih _

theorem bufAt_addMessage_self (s : ChatState) (m : ChatMessage) :
    bufAt (s.addMessage m) m.room = (bufAt s m.room).push m := by
  unfold bufAt ChatState.addMessage
  dsimp only
  rw [mapGet_mapSet_self]
  rfl

theorem bufAt_foldl_addMessage (R : String) (ms : List ChatMessage) :
    ∀ s : ChatState, (∀ m ∈ ms, m.room = R) →
      bufAt (ms.foldl ChatState.addMessage s) R = ms.foldl BoundedBuffer.push (bufAt s R) := by
  induction ms with
  | nil => intro s _; rfl
  | cons m rest ih =>
    intro s hall
    have hm : m.room = R := hall m (List.mem_cons_self _ _)
    simp only [List.foldl_cons]
    rw [ih _ (fun m' hm' => hall m' (List.mem_cons_of_mem _ hm'))]
    rw [← hm, bufAt_addMessage_self]

/-- **C3.** Starting from a fresh directory, after any sequence of
`addMessage` calls every room's history holds at most `maxMessagesPerRoom`
messages; and pushing exactly `maxMessagesPerRoom + 1` messages into a
single room evicts exactly the first message, the length saturating at the
capacity. -/
theorem c3_history_bounded (maxM : Nat) (ms : List ChatMessage) (R : String) :
    (roomHistory (ms.foldl ChatState.addMessage (ChatState.init maxM)) R).length ≤ maxM ∧
    ((∀ m ∈ ms, m.room = R) → ms.length = maxM + 1 →
      roomHistory (ms.foldl ChatState.addMessage (ChatState.init maxM)) R = ms.tail ∧
      (roomHistory (ms.foldl ChatState.addMessage (ChatState.init maxM)) R).length = maxM) := by
  constructor
  · have hok := foldl_addMessage_buffersOk ms (buffersOk_init maxM)
    have hle := bufAt_length_le hok R
    rw [foldl_addMessage_maxM ms (ChatState.init maxM)] at hle
    exact hle
  · intro hall hlen
    have hbuf := bufAt_foldl_addMessage R ms (ChatState.init maxM) hall
    have hstart : bufAt (ChatState.init maxM) R = BoundedBuffer.mk' ChatMessage maxM := rfl
    rw [hstart] at hbuf
    have hsat := BoundedBuffer.foldl_push_saturates maxM ms hlen
    constructor
    · show (bufAt _ R).items = ms.tail
      rw [hbuf, hsat]
    · show (bufAt _ R).items.length = maxM
      rw [hbuf, hsat]
      cases ms with
      | nil => simp at hlen
      | cons m rest =>
        simp only [List.length_cons] at hlen
        simpa using hlen

/-- Witness for C3 at capacity 2: pushing three messages into room `"lobby"`
leaves the last two. -/
theorem c3_witness :
    roomHistory
      ([createTextMessage "lobby" "a" "F1" "one" "i1" 1,
        createTextMessage "lobby" "a" "F1" "two" "i2" 2,
        createTextMessage "lobby" "a" "F1" "three" "i3" 3].foldl
        ChatState.addMessage (ChatState.init 2)) "lobby" =
      [createTextMessage "lobby" "a" "F1" "two" "i2" 2,
       createTextMessage "lobby" "a" "F1" "three" "i3" 3] :=
  ((c3_history_bounded 2 _ "lobby").2 (by decide) (by decide)).1

/-! ### C5 — `isNickTaken`

The claim quantifies over *every* excluded session id `s`.  The source guard
`excludeSessionId && user.sessionId === excludeSessionId` treats the empty
string as falsy, so exclusion by `s = ""` excludes nobody; the claimed
equivalence fails there and holds for every non-empty `s`. -/

theorem isNickTakenGo_some_iff (nick room s : String) (hs : s ≠ "")
    (us : List (String × UserInfo)) :
    ChatState.isNickTakenGo nick room (some s) us = true ↔
      ∃ p ∈ us, p.2.room = room ∧ jsToLowerCase p.2.nick = jsToLowerCase nick ∧
        p.2.sessionId ≠ s := by
  induction us with
  | nil => simp [ChatState.isNickTakenGo]
  | cons p rest ih =>
    obtain ⟨k, u⟩ := p
    simp only [ChatState.isNickTakenGo]
    by_cases h1 : (u.room == room && jsToLowerCase u.nick == jsToLowerCase nick) = true
    · rw [if_pos h1]
      simp only [Bool.and_eq_true, beq_iff_eq] at h1
      by_cases h2 : (!(s == "") && u.sessionId == s) = true
      · simp only [Bool.and_eq_true, beq_iff_eq, Bool.not_eq_true', beq_eq_false_iff_ne] at h2
        rw [if_pos (by simp [h2.2, hs])]
        rw [ih]
        constructor
        · rintro ⟨q, hq, hprops⟩
          exact ⟨q, List.mem_cons_of_mem _ hq, hprops⟩
        · rintro ⟨q, hq, hprops⟩
          rcases List.mem_cons.mp hq with rfl | hq'
          · exact absurd h2.2 hprops.2.2
          · exact ⟨q, hq', hprops⟩
      · rw [if_neg (by simpa using h2)]
        simp only [Bool.and_eq_true, Bool.not_eq_true', beq_eq_false_iff_ne, beq_iff_eq,
          not_and] at h2
        have hne : u.sessionId ≠ s := fun he => by
          have := h2 (by simpa using hs)
          exact absurd (by simpa using he) this
        simp only [true_iff]
        exact ⟨(k, u), List.mem_cons_self _ _, h1.1, h1.2, hne⟩
    · rw [if_neg h1]
      rw [ih]
      simp only [Bool.and_eq_true, beq_iff_eq, not_and] at h1
      constructor
      · rintro ⟨q, hq, hprops⟩
        exact ⟨q, List.mem_cons_of_mem _ hq, hprops⟩
      · rintro ⟨q, hq, hprops⟩
        rcases List.mem_cons.mp hq with heq | hq'
        · rcases hprops with ⟨hr, hn, _⟩
          rw [heq] at hr hn
          exact absurd hn (h1 hr)
        · exact ⟨q, hq', hprops⟩

/-- The C5 equivalence as claimed, restricted to non-empty excluded ids
(nicks are compared lowercased; `u` ranges over the registered users). -/
theorem c5_amended_isNickTaken_iff (st : ChatState) (nick room s : String)
    (hs : s ≠ "") :
    st.isNickTaken nick room (some s) = true ↔
      ∃ p ∈ st.users, p.2.room = room ∧
        jsToLowerCase p.2.nick = jsToLowerCase nick ∧ p.2.sessionId ≠ s :=
  isNickTakenGo_some_iff nick room s hs st.users

/-- The single registered user of the C5 counterexample: its `sessionId` is
the empty string. An empty string is falsy in JS, so excluding `""` excludes
nobody. -/
def c5User : UserInfo :=
  { sessionId := "", nick := "alice", fingerprint := "F1", room := "lobby", joinedAt := 0 }

def c5State : ChatState :=
  { users := [("", c5User)], roomMessages := [], maxMessagesPerRoom := 100,
    listenerOwners := [] }

/-- Counterexample to C5 as stated: with the empty string as the excluded
session id, `isNickTaken` returns true although no registered user matching
the nick and room has a session id different from the excluded one. -/
theorem c5_counterexample :
    c5State.isNickTaken "alice" "lobby" (some "") = true ∧
    ¬∃ p ∈ c5State.users, p.2.room = "lobby" ∧
      jsToLowerCase p.2.nick = jsToLowerCase "alice" ∧ p.2.sessionId ≠ "" := by
  constructor
  · decide
  · rintro ⟨p, hp, -, -, hne⟩
    have hpe : p = ("", c5User) := by simpa [c5State] using hp
    rw [hpe] at hne
    exact hne rfl

/-- The single registered user of the C5 witness: `alice` in `lobby` under
session id `"A1"`. -/
def c5WitUser : UserInfo :=
  { sessionId := "A1", nick := "alice", fingerprint := "F1", room := "lobby", joinedAt := 0 }

def c5WitState : ChatState :=
  { users := [("A1", c5WitUser)], roomMessages := [], maxMessagesPerRoom := 100,
    listenerOwners := [] }

/-- Witness for the amended C5: a user re-asserting their own (case-changed)
nick with themselves excluded gets `false`; a different session asking about
the taken nick gets `true`. -/
theorem c5_witness :
    c5WitState.isNickTaken "ALICE" "lobby" (some "A1") = false ∧
    c5WitState.isNickTaken "ALICE" "lobby" (some "B2") = true := by
  constructor
  · rcases Bool.eq_false_or_eq_true (c5WitState.isNickTaken "ALICE" "lobby" (some "A1"))
      with hb | hb
    · have h := (c5_amended_isNickTaken_iff c5WitState "ALICE" "lobby" "A1"
        (by decide)).mp hb
      obtain ⟨p, hp, -, -, hne⟩ := h
      have hpe : p = ("A1", c5WitUser) := by simpa [c5WitState] using hp
      rw [hpe] at hne
      exact absurd rfl hne
    · exact hb
  · exact (c5_amended_isNickTaken_iff c5WitState "ALICE" "lobby" "B2" (by decide)).mpr
      ⟨("A1", c5WitUser), by simp [c5WitState], rfl, by decide, by decide⟩

/-! ### C8 — rate-limited `sendMessage` discards atomically -/

/-- The default configuration (`DEFAULT_ROOM=lobby`, `MAX_MESSAGE_SIZE=4096`,
`RATE_LIMIT=10`, `MAX_NICK_LENGTH=32`, `MAX_ROOM_NAME_LENGTH=32`), with the
rate limit overridden where a scenario says so. -/
def mkConfig (rateLimit : Nat) : Config :=
  { defaultRoom := "lobby", maxMessageSize := 4096, rateLimit,
    maxNickLength := 32, maxRoomNameLength := 32 }

/-- A connected session in `lobby` with a fresh limiter at the given limit. -/
def mkSession (rateLimit : Nat) : UserSession :=
  { id := "S1", fingerprint := "ABCD1234", config := mkConfig rateLimit,
    nick := "anon_ABCD12", room := "lobby", isConnected := true,
    rateLimiter := { timestamps := [], maxRequests := rateLimit } }

/-- **C8.** When a connected session's rate limiter refuses admission,
`sendMessage` only emits the rate-limit system message: no echo, no publish,
directory unchanged (the limiter has merely expired out-of-window entries).
At `rateLimit = 3`, the fourth message inside one window is dropped this way
while the first three were published, echoed and recorded. -/
theorem c8_rate_limited_discard :
    (∀ (sess : UserSession) (st : ChatState) (content : String) (now : Nat)
        (msgId : String) (pub : Option String),
      sess.isConnected = true →
      (sess.rateLimiter.canProceed now).1 = false →
      sess.sendMessage st content now msgId pub =
        ⟨{ sess with rateLimiter := (sess.rateLimiter.canProceed now).2 }, st,
         [.onSystemMessage "Rate limit exceeded. Please slow down."]⟩) ∧
    ((mkSession 3).sendMessage (ChatState.init 100) "m1" 0 "i1" none |> fun r1 =>
     r1.session.sendMessage r1.state "m2" 50 "i2" none |> fun r2 =>
     r2.session.sendMessage r2.state "m3" 100 "i3" none |> fun r3 =>
     r3.session.sendMessage r3.state "m4" 150 "i4" none |> fun r4 =>
       r3.effects = [.publish "lobby" (createTextMessage "lobby" "anon_ABCD12" "ABCD1234" "m3" "i3" 100),
                     .onMessage (createTextMessage "lobby" "anon_ABCD12" "ABCD1234" "m3" "i3" 100)] ∧
       r4.effects = [.onSystemMessage "Rate limit exceeded. Please slow down."] ∧
       r4.state = r3.state ∧
       roomHistory r4.state "lobby" =
         [createTextMessage "lobby" "anon_ABCD12" "ABCD1234" "m1" "i1" 0,
          createTextMessage "lobby" "anon_ABCD12" "ABCD1234" "m2" "i2" 50,
          createTextMessage "lobby" "anon_ABCD12" "ABCD1234" "m3" "i3" 100]) := by
  constructor
  · intro sess st content now msgId pub hconn hfull
    rw [UserSession.sendMessage, if_neg (by simp [hconn])]
    have hrec : sess.rateLimiter.record now = (false, (sess.rateLimiter.canProceed now).2) := by
      rw [RateLimiter.record]
      simp only [hfull]
      rfl
    simp only [hrec]
    rfl
  · decide

/-- Witness for C8's universal part: a limiter at capacity 3 refuses a
fourth admission and the message is dropped without touching the state. -/
theorem c8_witness :
    (mkSession 3).isConnected = true ∧
    ((({ mkSession 3 with
        rateLimiter := { timestamps := [0, 50, 100], maxRequests := 3 } } :
          UserSession).rateLimiter.canProceed 150).1 = false) ∧
    ({ mkSession 3 with
        rateLimiter := { timestamps := [0, 50, 100], maxRequests := 3 } } :
          UserSession).sendMessage (ChatState.init 100) "m4" 150 "i4" none =
      ⟨{ mkSession 3 with
          rateLimiter := { timestamps := [0, 50, 100], maxRequests := 3 } },
        ChatState.init 100,
        [.onSystemMessage "Rate limit exceeded. Please slow down."]⟩ := by
  refine ⟨by decide, by decide, ?_⟩
  have h := c8_rate_limited_discard.1
    ({ mkSession 3 with rateLimiter := { timestamps := [0, 50, 100], maxRequests := 3 } })
    (ChatState.init 100) "m4" 150 "i4" none (by decide) (by decide)
  rw [h]
  decide

/-! ### C1 — which public operations are guarded by `isConnected`

Only `sendMessage` and `sendAction` begin with
`if (!this._isConnected) { showSystemMessage('Not connected'); return; }`.
`changeNick` (and `joinRoom`, `showUserList`, `showRoomList`,
`clearMessages`) have no such guard, so a disconnected session's
`changeNick` still rewrites the session's nick and the directory. -/

/-- A *disconnected* session (as after construction, before `start()`). -/
def c1Session : UserSession :=
  { id := "S1", fingerprint := "ABCD1234", config := mkConfig 10,
    nick := "anon_ABCD12", room := "lobby", isConnected := false,
    rateLimiter := { timestamps := [], maxRequests := 10 } }

/-- Counterexample to C1 as stated: `changeNick` on a disconnected session
changes the session's `nick` field and the Chat Directory (the nick-change
message is appended to the room history), instead of being a no-op. -/
theorem c1_counterexample :
    c1Session.isConnected = false ∧
    (c1Session.changeNick (ChatState.init 100) "bob" 0 "i1" none).session.nick = "bob" ∧
    c1Session.nick ≠ "bob" ∧
    (c1Session.changeNick (ChatState.init 100) "bob" 0 "i1" none).state ≠
      ChatState.init 100 := by
  decide

/-- **C1 (amended).** `sendMessage` and `sendAction` are no-ops with a
`"Not connected"` system message while disconnected; `changeNick` is not
guarded: on a disconnected session it still installs a fresh, untaken nick. -/
theorem c1_amended_connected_guard :
    (∀ (sess : UserSession) (st : ChatState) (content : String) (now : Nat)
        (msgId : String) (pub : Option String), sess.isConnected = false →
      sess.sendMessage st content now msgId pub =
        ⟨sess, st, [.onSystemMessage "Not connected"]⟩) ∧
    (∀ (sess : UserSession) (st : ChatState) (action : String) (now : Nat)
        (msgId : String) (pub : Option String), sess.isConnected = false →
      sess.sendAction st action now msgId pub =
        ⟨sess, st, [.onSystemMessage "Not connected"]⟩) ∧
    (∀ (sess : UserSession) (st : ChatState) (newNick : String) (now : Nat)
        (msgId : String) (pub : Option String), sess.isConnected = false →
      newNick ≠ sess.nick →
      st.isNickTaken newNick sess.room (some sess.id) = false →
      (sess.changeNick st newNick now msgId pub).session.nick = newNick) := by
  refine ⟨?_, ?_, ?_⟩
  · intro sess st content now msgId pub h
    rw [UserSession.sendMessage, if_pos (by simp [h])]
  · intro sess st action now msgId pub h
    rw [UserSession.sendAction, if_pos (by simp [h])]
  · intro sess st newNick now msgId pub _ hne htaken
    rw [UserSession.changeNick, if_neg (by simpa using hne), if_neg (by simp [htaken])]
    cases pubsubSendOutcome pub <;> rfl

/-- Witness for the amended C1 at concrete inputs. -/
theorem c1_witness :
    c1Session.sendMessage (ChatState.init 100) "hello" 0 "i1" none =
      ⟨c1Session, ChatState.init 100, [.onSystemMessage "Not connected"]⟩ ∧
    c1Session.sendAction (ChatState.init 100) "waves" 0 "i1" none =
      ⟨c1Session, ChatState.init 100, [.onSystemMessage "Not connected"]⟩ ∧
    (c1Session.changeNick (ChatState.init 100) "bob" 0 "i1" none).session.nick = "bob" :=
  ⟨c1_amended_connected_guard.1 c1Session (ChatState.init 100) "hello" 0 "i1" none (by decide),
   c1_amended_connected_guard.2.1 c1Session (ChatState.init 100) "waves" 0 "i1" none (by decide),
   c1_amended_connected_guard.2.2 c1Session (ChatState.init 100) "bob" 0 "i1" none
     (by decide) (by decide) (by decide)⟩

/-! ### C2 — `destroy()` clears the *shared* emitter's listeners

`UserSession.destroy` ends in `this.chatState.removeAllListeners()`.
`chatState` is the shared `ChatState` (an `EventEmitter`), so this removes
*every* session's listeners, not just the destroyed session's. -/

/-- Session `A`, connected in `lobby`. -/
def c2SessA : UserSession :=
  { id := "A", fingerprint := "AAAA1111", config := mkConfig 10,
    nick := "alice", room := "lobby", isConnected := true,
    rateLimiter := { timestamps := [], maxRequests := 10 } }

/-- Session `B`, connected in `lobby`. -/
def c2SessB : UserSession :=
  { id := "B", fingerprint := "BBBB2222", config := mkConfig 10,
    nick := "bob", room := "lobby", isConnected := true,
    rateLimiter := { timestamps := [], maxRequests := 10 } }

/-- `A`'s directory record. -/
def c2UserA : UserInfo :=
  { sessionId := "A", nick := "alice", fingerprint := "AAAA1111", room := "lobby", joinedAt := 0 }

/-- `B`'s directory record. -/
def c2UserB : UserInfo :=
  { sessionId := "B", nick := "bob", fingerprint := "BBBB2222", room := "lobby", joinedAt := 0 }

/-- The shared directory after both sessions registered and attached their
listeners (`start()`), in attach order `A` then `B`. -/
def c2State : ChatState :=
  { users := [("A", c2UserA), ("B", c2UserB)],
    roomMessages := [], maxMessagesPerRoom := 100, listenerOwners := ["A", "B"] }

/-- A `lobby` message carrying `A`'s fingerprint. -/
def c2Msg : ChatMessage :=
  createTextMessage "lobby" "alice" "AAAA1111" "hi" "i1" 5

/-- **C2 is violated by the code** (evaluation at the failing input): before
`A.destroy()`, a `'message'` event for `lobby` is delivered to `B` (and not
echoed to `A`); `destroy` empties the shared listener registry, so after it
returns the same event reaches nobody — `B`'s listeners did not survive. -/
theorem c2_destroy_silences_other_sessions :
    emitMessageDeliveries c2State [c2SessA, c2SessB] c2Msg = ["B"] ∧
    (c2SessA.destroy c2State "i9" 99).state.listenerOwners = [] ∧
    emitMessageDeliveries (c2SessA.destroy c2State "i9" 99).state
      [(c2SessA.destroy c2State "i9" 99).session, c2SessB] c2Msg = [] := by
  decide

/-! ### C6 — the wire codec

`encodeMessage` is `JSON.stringify` on the message record (UTF-8 bytes of
the result); `decodeMessage` is `JSON.parse` followed by the source's
unchecked `as ChatMessage` view of the parsed object.  The embedding works
at the level of the JSON *text* (a Lean `String` stands for its UTF-8
bytes, which encode it bijectively).  JSON values are modelled by the
fragment `JSON.stringify` can produce for a message record — strings,
base-10 natural numbers (timestamps from `Date.now()`), and objects — and
the parser is `JSON.parse` restricted to that fragment. -/

/-- Decimal digit character for `d % 10`. -/
def digitChar (d : Nat) : Char := Char.ofNat (48 + d % 10)

/-- Lowercase hexadecimal digit character for `d % 16`
(`JSON.stringify` emits lowercase `\u00xx` escapes). -/
def hexDigitChar (d : Nat) : Char :=
  if d % 16 < 10 then Char.ofNat (48 + d % 16) else Char.ofNat (87 + d % 16)

def isDigitChar (c : Char) : Bool := '0' ≤ c && c ≤ '9'

def isHexDigitChar (c : Char) : Bool :=
  ('0' ≤ c && c ≤ '9') || ('a' ≤ c && c ≤ 'f') || ('A' ≤ c && c ≤ 'F')

/-- Value of a hexadecimal digit character. -/
def hexVal (c : Char) : Nat :=
  if '0' ≤ c && c ≤ '9' then c.toNat - 48
  else if 'a' ≤ c && c ≤ 'f' then c.toNat - 87
  else c.toNat - 55

/-- Base-10 digits of a natural number, most significant first
(`String(n)` for a nonnegative integer JS number). -/
def natDigits (n : Nat) : List Char :=
  if n < 10 then [digitChar n]
  else natDigits (n / 10) ++ [digitChar (n % 10)]
  decreasing_by exact Nat.div_lt_self (by omega) (by omega)

/-- Consume leading decimal digits, accumulating their value. -/
def parseNatAcc (acc : Nat) : List Char → Nat × List Char
  | [] => (acc, [])
  | c :: cs =>
    if isDigitChar c then parseNatAcc (acc * 10 + (c.toNat - 48)) cs
    else (acc, c :: cs)

theorem digitChar_toNat {d : Nat} (h : d < 10) : (digitChar d).toNat = 48 + d := by
  rw [digitChar, Nat.mod_eq_of_lt h]
  exact char_toNat_ofNat (Or.inl (by omega))

theorem digitChar_isDigit {d : Nat} (h : d < 10) : isDigitChar (digitChar d) = true := by
  simp only [isDigitChar, Bool.and_eq_true, decide_eq_true_eq, char_le_iff_toNat]
  rw [digitChar_toNat h]
  constructor
  · show (48 : Nat) ≤ 48 + d
    omega
  · show 48 + d ≤ 57
    omega

/-- A list that does not begin with a decimal digit. -/
def headNotDigit : List Char → Prop
  | [] => True
  | c :: _ => isDigitChar c = false

theorem parseNatAcc_stop (a : Nat) {rest : List Char} (h : headNotDigit rest) :
    parseNatAcc a rest = (a, rest) := by
  cases rest with
  | nil => rfl
  | cons c cs =>
    simp only [headNotDigit] at h
    simp [parseNatAcc, h]

theorem parseNatAcc_digits (n : Nat) : ∀ (acc : Nat) (rest : List Char),
    parseNatAcc acc (natDigits n ++ rest) =
      parseNatAcc (acc * 10 ^ (natDigits n).length + n) rest := by
  induction n using Nat.strong_induction_on with
  | _ n ih =>
    intro acc rest
    by_cases h : n < 10
    · rw [natDigits, if_pos h]
      simp only [List.singleton_append, List.length_singleton]
      simp only [parseNatAcc]
      rw [if_pos (digitChar_isDigit h), digitChar_toNat h, pow_one]
      congr 1
      omega
    · rw [natDigits, if_neg h]
      have hq : n / 10 < n := Nat.div_lt_self (by omega) (by omega)
      have hm : n % 10 < 10 := Nat.mod_lt _ (by omega)
      rw [List.append_assoc, List.singleton_append, ih _ hq]
      simp only [parseNatAcc]
      rw [if_pos (digitChar_isDigit hm), digitChar_toNat hm]
      rw [List.length_append, List.length_singleton, pow_succ]
      congr 1
      have hdm := Nat.div_add_mod n 10
      have h48 : 48 + n % 10 - 48 = n % 10 := by omega
      rw [h48]
      calc (acc * 10 ^ (natDigits (n / 10)).length + n / 10) * 10 + n % 10
          = acc * (10 ^ (natDigits (n / 10)).length * 10) + (10 * (n / 10) + n % 10) := by
            ring
        _ = acc * (10 ^ (natDigits (n / 10)).length * 10) + n := by rw [hdm]

/-- The decimal printer/parser round-trip. -/
theorem parseNatAcc_natDigits (n : Nat) {rest : List Char} (h : headNotDigit rest) :
    parseNatAcc 0 (natDigits n ++ rest) = (n, rest) := by
  rw [parseNatAcc_digits, Nat.zero_mul, Nat.zero_add, parseNatAcc_stop _ h]

theorem natDigits_head (n : Nat) :
    ∃ c cs, natDigits n = c :: cs ∧ isDigitChar c = true := by
  induction n using Nat.strong_induction_on with
  | _ n ih =>
    by_cases h : n < 10
    · exact ⟨digitChar n, [], by rw [natDigits, if_pos h], digitChar_isDigit h⟩
    · obtain ⟨c, cs, hcons, hdig⟩ := ih (n / 10) (Nat.div_lt_self (by omega) (by omega))
      exact ⟨c, cs ++ [digitChar (n % 10)], by rw [natDigits, if_neg h, hcons]; rfl, hdig⟩

/-- `JSON.stringify`'s escape of one string character: `"`, `\`, the five
named control escapes, `\u00xx` for the remaining control characters, and
every other character verbatim. -/
def escapeChar (c : Char) : List Char :=
  if c = '"' then ['\\', '"']
  else if c = '\\' then ['\\', '\\']
  else if c = '\x08' then ['\\', 'b']
  else if c = '\x09' then ['\\', 't']
  else if c = '\x0a' then ['\\', 'n']
  else if c = '\x0c' then ['\\', 'f']
  else if c = '\x0d' then ['\\', 'r']
  else if c.toNat < 32 then
    ['\\', 'u', '0', '0', hexDigitChar (c.toNat / 16), hexDigitChar (c.toNat % 16)]
  else [c]

def escapeList : List Char → List Char
  | [] => []
  | c :: cs => escapeChar c ++ escapeList cs

/-- `JSON.parse`'s reading of a string literal's body (after the opening
quote), up to and including the closing quote: literal characters, the
escape sequences, rejection of raw control characters and of invalid
escapes. -/
def parseStringBody : List Char → Option (List Char × List Char)
  | [] => none
  | c :: rest =>
    if c = '"' then some ([], rest)
    else if c = '\\' then
      match rest with
      | [] => none
      | e :: rest₂ =>
        if e = '"' then (parseStringBody rest₂).map (fun p => ('"' :: p.1, p.2))
        else if e = '\\' then (parseStringBody rest₂).map (fun p => ('\\' :: p.1, p.2))
        else if e = '/' then (parseStringBody rest₂).map (fun p => ('/' :: p.1, p.2))
        else if e = 'b' then (parseStringBody rest₂).map (fun p => ('\x08' :: p.1, p.2))
        else if e = 'f' then (parseStringBody rest₂).map (fun p => ('\x0c' :: p.1, p.2))
        else if e = 'n' then (parseStringBody rest₂).map (fun p => ('\x0a' :: p.1, p.2))
        else if e = 'r' then (parseStringBody rest₂).map (fun p => ('\x0d' :: p.1, p.2))
        else if e = 't' then (parseStringBody rest₂).map (fun p => ('\x09' :: p.1, p.2))
        else if e = 'u' then
          match rest₂ with
          | h1 :: h2 :: h3 :: h4 :: rest₃ =>
            if isHexDigitChar h1 && isHexDigitChar h2 && isHexDigitChar h3 &&
                isHexDigitChar h4 then
              (parseStringBody rest₃).map (fun p =>
                (Char.ofNat
                  (hexVal h1 * 4096 + hexVal h2 * 256 + hexVal h3 * 16 + hexVal h4)
                  :: p.1, p.2))
            else none
          | _ => none
        else none
    else if c.toNat < 32 then none
    else (parseStringBody rest).map (fun p => (c :: p.1, p.2))
  termination_by structural cs => cs

theorem hexDigitChar_isHex {d : Nat} (h : d < 16) :
    isHexDigitChar (hexDigitChar d) = true := by
  interval_cases d <;> decide

theorem hexVal_hexDigitChar {d : Nat} (h : d < 16) : hexVal (hexDigitChar d) = d := by
  interval_cases d <;> decide

/-- Unescaping inverts escaping: the parser recovers exactly the characters
`JSON.stringify` escaped, then stops at the closing quote. -/
theorem parseStringBody_escape (s : List Char) : ∀ rest : List Char,
    parseStringBody (escapeList s ++ '"' :: rest) = some (s, rest) := by
  induction s with
  | nil => intro rest; rw [escapeList, List.nil_append, parseStringBody.eq_def]; simp
  | cons c cs ih =>
    intro rest
    rw [escapeList, List.append_assoc, escapeChar]
    by_cases h1 : c = '"'
    · subst h1; rw [parseStringBody.eq_def]; simp [ih]
    rw [if_neg h1]
    by_cases h2 : c = '\\'
    · subst h2; rw [parseStringBody.eq_def]; simp [ih]
    rw [if_neg h2]
    by_cases h3 : c = '\x08'
    · subst h3; rw [parseStringBody.eq_def]; simp [ih]
    rw [if_neg h3]
    by_cases h4 : c = '\x09'
    · subst h4; rw [parseStringBody.eq_def]; simp [ih]
    rw [if_neg h4]
    by_cases h5 : c = '\x0a'
    · subst h5; rw [parseStringBody.eq_def]; simp [ih]
    rw [if_neg h5]
    by_cases h6 : c = '\x0c'
    · subst h6; rw [parseStringBody.eq_def]; simp [ih]
    rw [if_neg h6]
    by_cases h7 : c = '\x0d'
    · subst h7; rw [parseStringBody.eq_def]; simp [ih]
    rw [if_neg h7]
    by_cases h8 : c.toNat < 32
    · rw [if_pos h8]
      have hd1 : c.toNat / 16 < 16 := by omega
      have hd2 : c.toNat % 16 < 16 := by omega
      have hhex1 := hexDigitChar_isHex hd1
      have hhex2 := hexDigitChar_isHex hd2
      have hval1 := hexVal_hexDigitChar hd1
      have hval2 := hexVal_hexDigitChar hd2
      simp only [List.cons_append, List.nil_append]
      rw [parseStringBody.eq_def]
      have hval : hexVal '0' * 4096 + hexVal '0' * 256 +
          hexVal (hexDigitChar (c.toNat / 16)) * 16 + hexVal (hexDigitChar (c.toNat % 16))
          = c.toNat := by
        have h0 : hexVal '0' = 0 := by decide
        rw [h0, hval1, hval2]
        omega
      have h0hex : isHexDigitChar '0' = true := by decide
      simp [ih, hhex1, hhex2, h0hex, hval, Char.ofNat_toNat]
    · rw [if_neg h8]
      simp only [List.cons_append, List.nil_append]
      rw [parseStringBody.eq_def]
      simp [ih, h1, h2, h8]

/-- The JSON fragment `JSON.stringify` produces for a message record:
member values are strings or (natural) numbers, a document is such a value
or one flat object of them.  `JSON.parse` is embedded on this fragment. -/
inductive JsonPrim where
  | str (s : String)
  | num (n : Nat)
  deriving Repr, DecidableEq

inductive Json where
  | prim (p : JsonPrim)
  | obj (fields : List (String × JsonPrim))
  deriving Repr, DecidableEq

/-- `JSON.stringify` of a primitive. -/
def serializePrim : JsonPrim → List Char
  | .str s => '"' :: escapeList s.data ++ ['"']
  | .num n => natDigits n

/-- `JSON.stringify` of one object member, `"key":value`. -/
def serializeMember (k : String) (v : JsonPrim) : List Char :=
  '"' :: escapeList k.data ++ '"' :: ':' :: serializePrim v

/-- `JSON.stringify` of an object's members, comma-separated. -/
def serializeMembers : List (String × JsonPrim) → List Char
  | [] => []
  | [(k, v)] => serializeMember k v
  | (k, v) :: rest => serializeMember k v ++ ',' :: serializeMembers rest

/-- `JSON.stringify` of a flat object. -/
def serializeObj (fields : List (String × JsonPrim)) : List Char :=
  '{' :: serializeMembers fields ++ ['}']

/-- The JSON whitespace characters. -/
def isJsonWs (c : Char) : Bool := c = ' ' || c = '\t' || c = '\n' || c = '\r'

def skipWs (cs : List Char) : List Char := cs.dropWhile isJsonWs

/-- `JSON.parse` of a primitive (string literal or natural number). -/
def parsePrim (cs : List Char) : Option (JsonPrim × List Char) :=
  match cs with
  | [] => none
  | c :: rest =>
    if c = '"' then
      (parseStringBody rest).map (fun p => (JsonPrim.str (String.mk p.1), p.2))
    else if isDigitChar c then
      let p := parseNatAcc 0 (c :: rest)
      some (.num p.1, p.2)
    else none

/-- `JSON.parse` of an object's members, starting after `{` (or after a
`,`), up to and including the closing `}`.  The fuel only serves
termination; `parseValue` supplies more than the member count. -/
def parseMembersF : Nat → List Char → Option (List (String × JsonPrim) × List Char)
  | 0, _ => none
  | fuel + 1, cs =>
    match skipWs cs with
    | '"' :: rest =>
      match parseStringBody rest with
      | none => none
      | some (key, rest₁) =>
        match skipWs rest₁ with
        | ':' :: rest₂ =>
          match parsePrim (skipWs rest₂) with
          | none => none
          | some (v, rest₃) =>
            match skipWs rest₃ with
            | ',' :: rest₄ =>
              (parseMembersF fuel rest₄).map (fun p => ((String.mk key, v) :: p.1, p.2))
            | '}' :: rest₄ => some ([(String.mk key, v)], rest₄)
            | _ => none
        | _ => none
    | _ => none

/-- `JSON.parse` of one document value of the fragment. -/
def parseValue (cs : List Char) : Option (Json × List Char) :=
  match skipWs cs with
  | [] => none
  | c :: rest =>
    if c = '{' then
      match skipWs rest with
      | '}' :: rest' => some (.obj [], rest')
      | _ => (parseMembersF (rest.length + 1) rest).map (fun p => (Json.obj p.1, p.2))
    else (parsePrim (c :: rest)).map (fun p => (Json.prim p.1, p.2))

/-- `JSON.parse`: one value, then only trailing whitespace. -/
def decodeJson (s : String) : Option Json :=
  match parseValue s.data with
  | some (v, rest) => if skipWs rest = [] then some v else none
  | none => none

theorem skipWs_cons {c : Char} (cs : List Char) (h : isJsonWs c = false) :
    skipWs (c :: cs) = c :: cs := by
  simp [skipWs, List.dropWhile_cons, h]

theorem isDigitChar_iff {c : Char} : isDigitChar c = true ↔ 48 ≤ c.toNat ∧ c.toNat ≤ 57 := by
  simp only [isDigitChar, Bool.and_eq_true, decide_eq_true_eq, char_le_iff_toNat]
  simp only [show '0'.toNat = 48 from rfl, show '9'.toNat = 57 from rfl]

theorem digit_not_ws {c : Char} (h : isDigitChar c = true) : isJsonWs c = false := by
  rw [isDigitChar_iff] at h
  simp only [isJsonWs, Bool.or_eq_false_iff, decide_eq_false_iff_not, char_eq_iff_toNat]
  simp only [show ' '.toNat = 32 from rfl, show '\t'.toNat = 9 from rfl,
    show '\n'.toNat = 10 from rfl, show '\r'.toNat = 13 from rfl]
  omega

theorem digit_ne_quote {c : Char} (h : isDigitChar c = true) : ¬c = '"' := by
  rw [isDigitChar_iff] at h
  rw [char_eq_iff_toNat]
  simp only [show '"'.toNat = 34 from rfl]
  omega

theorem digit_ne_lbrace {c : Char} (h : isDigitChar c = true) : ¬c = '{' := by
  rw [isDigitChar_iff] at h
  rw [char_eq_iff_toNat]
  simp only [show '{'.toNat = 123 from rfl]
  omega

theorem skipWs_serializePrim (v : JsonPrim) (rest : List Char) :
    skipWs (serializePrim v ++ rest) = serializePrim v ++ rest := by
  cases v with
  | str s =>
    simp only [serializePrim, List.cons_append]
    exact skipWs_cons _ (by decide)
  | num n =>
    obtain ⟨c, cs, hcons, hdig⟩ := natDigits_head n
    simp only [serializePrim, hcons, List.cons_append]
    exact skipWs_cons _ (digit_not_ws hdig)

/-- Parsing inverts serialization for a primitive (for a number, the
serialized digits must not be followed directly by another digit). -/
theorem parsePrim_serialize (v : JsonPrim) (rest : List Char)
    (hnum : ∀ n, v = .num n → headNotDigit rest) :
    parsePrim (serializePrim v ++ rest) = some (v, rest) := by
  cases v with
  | str s =>
    simp only [serializePrim, List.cons_append, List.append_assoc, List.singleton_append]
    simp only [parsePrim, eq_self_iff_true, if_true, List.nil_append]
    rw [parseStringBody_escape]
    rfl
  | num n =>
    obtain ⟨c, cs, hcons, hdig⟩ := natDigits_head n
    simp only [serializePrim, hcons, List.cons_append]
    simp only [parsePrim]
    rw [if_neg (digit_ne_quote hdig), if_pos hdig]
    rw [show c :: (cs ++ rest) = natDigits n ++ rest from by rw [hcons]; rfl]
    rw [parseNatAcc_natDigits n (hnum n rfl)]

/-- Parsing inverts serialization for a nonempty run of object members. -/
theorem parseMembersF_serialize (fields : List (String × JsonPrim)) :
    ∀ (fuel : Nat) (rest : List Char), fields ≠ [] → fields.length ≤ fuel →
      parseMembersF fuel (serializeMembers fields ++ '}' :: rest) = some (fields, rest) := by
  induction fields with
  | nil => intro fuel rest h _; exact absurd rfl h
  | cons kv fields' ih =>
    obtain ⟨k, v⟩ := kv
    intro fuel rest _ hfuel
    cases fuel with
    | zero => simp at hfuel
    | succ f =>
      cases fields' with
      | nil =>
        simp only [serializeMembers, serializeMember, List.cons_append, List.append_assoc]
        simp only [parseMembersF]
        rw [skipWs_cons _ (by decide)]
        simp only [List.cons_append]
        rw [parseStringBody_escape]
        simp only []
        rw [skipWs_cons _ (by decide)]
        simp only []
        rw [skipWs_serializePrim]
        rw [parsePrim_serialize v _
          (fun n hv => by simp only [headNotDigit]; decide)]
        simp only []
        rw [skipWs_cons _ (by decide)]
        rfl
      | cons kv₂ fields₂ =>
        simp only [serializeMembers, serializeMember, List.cons_append, List.append_assoc]
        simp only [parseMembersF]
        rw [skipWs_cons _ (by decide)]
        simp only [List.cons_append]
        rw [parseStringBody_escape]
        simp only []
        rw [skipWs_cons _ (by decide)]
        simp only []
        rw [skipWs_serializePrim]
        rw [parsePrim_serialize v _
          (fun n hv => by simp only [headNotDigit]; decide)]
        simp only []
        rw [skipWs_cons _ (by decide)]
        show (parseMembersF f (serializeMembers (kv₂ :: fields₂) ++ '}' :: rest)).map
          (fun p => ((String.mk k.data, v) :: p.1, p.2)) = _
        rw [ih f rest (by simp) (by simpa using hfuel)]
        rfl

theorem serializeMembers_cons_shape (kv : String × JsonPrim)
    (fields' : List (String × JsonPrim)) :
    ∃ tail, serializeMembers (kv :: fields') = '"' :: tail := by
  obtain ⟨k, v⟩ := kv
  cases fields' with
  | nil => exact ⟨_, rfl⟩
  | cons kv₂ fields₂ => exact ⟨_, rfl⟩

theorem serializeMembers_length (fields : List (String × JsonPrim)) :
    fields.length ≤ (serializeMembers fields).length := by
  induction fields with
  | nil => simp [serializeMembers]
  | cons kv fields' ih =>
    obtain ⟨k, v⟩ := kv
    cases fields' with
    | nil => simp [serializeMembers, serializeMember]
    | cons kv₂ fields₂ =>
      simp only [serializeMembers, serializeMember, List.length_append, List.length_cons,
        List.cons_append] at ih ⊢
      omega

/-- Parsing inverts serialization for a whole flat object. -/
theorem parseValue_serializeObj (fields : List (String × JsonPrim)) (rest : List Char) :
    parseValue (serializeObj fields ++ rest) = some (.obj fields, rest) := by
  cases fields with
  | nil =>
    simp only [serializeObj, serializeMembers, List.cons_append, List.nil_append,
      List.singleton_append]
    simp only [parseValue]
    rw [skipWs_cons _ (by decide)]
    simp only [eq_self_iff_true, if_true]
    rw [skipWs_cons _ (by decide)]
    rfl
  | cons kv fields' =>
    obtain ⟨tail, htail⟩ := serializeMembers_cons_shape kv fields'
    have hlen : (kv :: fields').length ≤
        (serializeMembers (kv :: fields') ++ '}' :: rest).length + 1 := by
      have hsm := serializeMembers_length (kv :: fields')
      simp only [List.length_cons] at hsm ⊢
      simp only [List.length_append, List.length_cons]
      omega
    simp only [serializeObj, List.cons_append, List.append_assoc, List.singleton_append]
    simp only [parseValue]
    rw [skipWs_cons _ (by decide)]
    simp only [eq_self_iff_true, if_true]
    have hmem := parseMembersF_serialize (kv :: fields')
      ((serializeMembers (kv :: fields') ++ '}' :: rest).length + 1) rest
      (by simp) hlen
    rw [htail] at hmem ⊢
    try simp only [List.cons_append] at hmem
    try simp only [List.cons_append]
    rw [skipWs_cons _ (by decide)]
    simp only [List.nil_append]
    show Option.map (fun p => (Json.obj p.1, p.2))
      (parseMembersF (('"' :: (tail ++ '}' :: rest)).length + 1) ('"' :: (tail ++ '}' :: rest)))
      = some (Json.obj (kv :: fields'), rest)
    rw [hmem]
    rfl

/-- `JSON.parse` inverts `JSON.stringify` on a flat object document. -/
theorem decodeJson_serializeObj (fields : List (String × JsonPrim)) :
    decodeJson (String.mk (serializeObj fields)) = some (.obj fields) := by
  have h := parseValue_serializeObj fields []
  rw [List.append_nil] at h
  simp [decodeJson, h, skipWs]

/-! #### The message record as a JSON object -/

def typeToString : MessageType → String
  | .text => "text"
  | .join => "join"
  | .leave => "leave"
  | .nick => "nick"
  | .action => "action"

def typeOfString (s : String) : Option MessageType :=
  if s = "text" then some .text
  else if s = "join" then some .join
  else if s = "leave" then some .leave
  else if s = "nick" then some .nick
  else if s = "action" then some .action
  else none

/-- The object `JSON.stringify` serializes for a message record: the fields
in declaration order; `oldNick` present iff it is not `undefined`. -/
def jsonOfMessage (m : ChatMessage) : List (String × JsonPrim) :=
  [("id", .str m.id), ("timestamp", .num m.timestamp), ("room", .str m.room),
   ("nick", .str m.nick), ("fingerprint", .str m.fingerprint),
   ("type", .str (typeToString m.type)), ("content", .str m.content)] ++
  (match m.oldNick with
   | some o => [("oldNick", JsonPrim.str o)]
   | none => [])

/-- `encodeMessage(message)`: the UTF-8 bytes of `JSON.stringify(message)`
(a Lean `String` stands for its UTF-8 encoding, which is injective). -/
def encodeMessage (m : ChatMessage) : String :=
  String.mk (serializeObj (jsonOfMessage m))

/-- The source's unchecked `JSON.parse(...) as ChatMessage` typing, made
explicit: how the parsed object is read at the `ChatMessage` record type
(total on every object `encodeMessage` can produce). -/
def asChatMessage (j : Json) : Option ChatMessage :=
  match j with
  | .prim _ => none
  | .obj fields =>
    match mapGet fields "id", mapGet fields "timestamp", mapGet fields "room",
        mapGet fields "nick", mapGet fields "fingerprint", mapGet fields "type",
        mapGet fields "content" with
    | some (.str id), some (.num timestamp), some (.str room), some (.str nick),
        some (.str fingerprint), some (.str tstr), some (.str content) =>
      match typeOfString tstr with
      | some type =>
        some { id, timestamp, room, nick, fingerprint, type, content,
               oldNick :=
                 match mapGet fields "oldNick" with
                 | some (.str o) => some o
                 | _ => none }
      | none => none
    | _, _, _, _, _, _, _ => none

/-- `decodeMessage(data)`: `JSON.parse` then the record view. -/
def decodeMessage (s : String) : Option ChatMessage :=
  (decodeJson s).bind asChatMessage

/-- Well-formedness from the claim: `oldNick` present iff `type = nick`
(the other fields are always present in the record type). -/
def wellFormedMessage (m : ChatMessage) : Prop :=
  m.oldNick.isSome ↔ m.type = .nick

theorem typeOfString_typeToString (t : MessageType) :
    typeOfString (typeToString t) = some t := by
  cases t <;> rfl

/-- **C6.** For every well-formed message (`oldNick` present iff
`type = nick`), decoding the encoding yields the message back;
decoding malformed (non-JSON) input fails. -/
theorem c6_codec_roundtrip (m : ChatMessage) (h : wellFormedMessage m) :
    decodeMessage (encodeMessage m) = some m ∧
    decodeMessage "this is not JSON" = none := by
  constructor
  · show (decodeJson (encodeMessage m)).bind asChatMessage = some m
    rw [show encodeMessage m = String.mk (serializeObj (jsonOfMessage m)) from rfl,
      decodeJson_serializeObj]
    show asChatMessage (.obj (jsonOfMessage m)) = some m
    cases hold : m.oldNick with
    | none =>
      simp only [asChatMessage, jsonOfMessage, hold, List.append_nil]
      simp [mapGet, typeOfString_typeToString, ← hold]
    | some o =>
      simp only [asChatMessage, jsonOfMessage, hold, List.cons_append, List.nil_append]
      simp [mapGet, typeOfString_typeToString, ← hold]
  · decide

/-- A concrete well-formed nick-change message. -/
def c6Msg : ChatMessage :=
  createNickChangeMessage "lobby" "alice" "bob" "ABCD1234" "3f2a-77" 1700000000000

/-- Witness for C6 at a concrete well-formed message. -/
theorem c6_witness :
    wellFormedMessage c6Msg ∧ decodeMessage (encodeMessage c6Msg) = some c6Msg :=
  ⟨by show c6Msg.oldNick.isSome ↔ c6Msg.type = MessageType.nick; decide,
   (c6_codec_roundtrip c6Msg
     (by show c6Msg.oldNick.isSome ↔ c6Msg.type = MessageType.nick; decide)).1⟩

end Whisper
